import Mathlib

/-!
Verification of the conviction-voting relationship-graph core
(`network_utils.py`, `entities.py`) of commons-stack/coodcad.

The Python code is shallowly embedded: the networkx `DiGraph` becomes an
explicit structure with a node list (node id = list index, matching the
program's use of `len(network.nodes)` as the next free id) and an
association list of directed edges carrying an attribute record.
`numpy.random.rand()` / `scipy.stats.expon.rvs` draws become an explicit
stream of rationals threaded through the functions.  Python floats are
modelled as rationals; Python's `ZeroDivisionError` becomes `Except.error`.
-/

namespace Coodcad

/-- Proposal lifecycle states, from `entities.py`:
`ProposalStatus = Enum("ProposalStatus", "CANDIDATE ACTIVE COMPLETED FAILED")`. -/
inductive ProposalStatus where
  | CANDIDATE
  | ACTIVE
  | COMPLETED
  | FAILED
deriving DecidableEq, Repr, Inhabited

/-- `entities.Participant`: only the fields the verified functions read.
`holdings_vesting` / `holdings_nonvesting` come from the out-of-scope
`hatch.TokenBatch` and are never read by the graph or decision code verified
here, so they are left out of the record. -/
structure Participant where
  sentiment : ℚ
deriving DecidableEq, Repr, Inhabited

/-- `entities.Proposal`: the numeric/state fields (the random English name is
irrelevant to every claim and omitted). -/
structure Proposal where
  conviction : ℚ
  status : ProposalStatus
  age : ℕ
  funds_requested : ℚ
  trigger : ℚ
deriving DecidableEq, Repr, Inhabited

/-- A graph node's `item` attribute: either a Participant or a Proposal
(`network.nodes[n]["item"]`). -/
inductive Item where
  | participant (p : Participant)
  | proposal (p : Proposal)
deriving DecidableEq, Repr

/-- The attribute dictionary of a networkx edge.  A key absent from the
Python dict is modelled by the default value `0` (resp. `""` for `type`);
every verified read of an attribute happens on an edge whose creating call
explicitly set that attribute. -/
structure EdgeData where
  type : String := ""
  affinity : ℚ := 0
  tokens : ℚ := 0
  conviction : ℚ := 0
  conflict : ℚ := 0
  influence : ℚ := 0
deriving DecidableEq, Repr

/-- One directed edge `(u, v)` with its attributes. -/
abbrev Edge := ℕ × ℕ × EdgeData

/-- The networkx `DiGraph`: node ids are `0, 1, …, nodes.length - 1` (the
program always creates node `i` at index `i`: `create_network` enumerates,
`bootstrap_network` and `add_proposal` use `len(network.nodes)`), and the
edge set holds at most one entry per ordered pair. -/
structure Graph where
  nodes : List Item
  edges : List Edge
deriving DecidableEq, Repr

/-- Does this edge have source `u` and target `v`? -/
def keyIs (u v : ℕ) (e : Edge) : Bool :=
  e.1 = u && e.2.1 = v

/-- Look up the attribute dict of edge `(u, v)`, `None` if absent. -/
def getEdge (g : Graph) (u v : ℕ) : Option EdgeData :=
  (g.edges.find? (keyIs u v)).map (fun e => e.2.2)

/-- `network.has_edge(u, v)`. -/
def hasEdge (g : Graph) (u v : ℕ) : Bool :=
  (getEdge g u v).isSome

/-- networkx `add_edge(u, v, **attrs)` merged with subsequent attribute
assignment: if the ordered pair already has an edge, the update function is
applied to its existing attribute dict (attributes not written by `f` are
kept); otherwise a fresh edge is created with `f` applied to the
all-defaults dict (a fresh networkx dict holding exactly the written keys). -/
def edgeUpdate (es : List Edge) (u v : ℕ) (f : EdgeData → EdgeData) : List Edge :=
  match es with
  | [] => [(u, v, f {})]
  | e :: rest =>
    if e.1 = u ∧ e.2.1 = v then (u, v, f e.2.2) :: rest
    else e :: edgeUpdate rest u v f

/-- `Graph`-level wrapper for `edgeUpdate`. -/
def addEdgeWith (g : Graph) (u v : ℕ) (f : EdgeData → EdgeData) : Graph :=
  { g with edges := edgeUpdate g.edges u v f }

/-- Is this node payload a Participant (`isinstance(item, Participant)`)? -/
def Item.isParticipant : Item → Bool
  | .participant _ => true
  | .proposal _ => false

/-- Is this node payload a Proposal (`isinstance(item, Proposal)`)? -/
def Item.isProposal : Item → Bool
  | .participant _ => false
  | .proposal _ => true

/-- `get_participants(network)`: the node ids whose `item` is a Participant,
in node order (dict insertion order in Python = increasing node id here). -/
def get_participants (g : Graph) : List ℕ :=
  (List.range g.nodes.length).filter
    (fun i => (g.nodes.getD i (.proposal default)).isParticipant)

/-- Does the node's proposal payload match the (optional) status filter?
In Python: `if status: return item.status == status; return True`
(every `ProposalStatus` member is truthy, so `if status` means
`status is not None`). -/
def statusMatches (status : Option ProposalStatus) (p : Proposal) : Bool :=
  match status with
  | some s => p.status = s
  | none => true

/-- `get_proposals(network, status=None)`: node ids whose `item` is a
Proposal, optionally filtered by status, in node order. -/
def get_proposals (g : Graph) (status : Option ProposalStatus) : List ℕ :=
  (List.range g.nodes.length).filter
    (fun i => match g.nodes.getD i (.participant default) with
      | .proposal p => statusMatches status p
      | .participant _ => false)

/-- The stream of random variates (`np.random.rand()` draws are uniform on
`[0,1)`; `expon.rvs` draws are nonnegative reals), threaded explicitly. -/
abbrev RNG := List ℚ

/-- Take one variate off the stream (an exhausted stream yields `0`, a legal
uniform value; all verified runs use streams long enough). -/
def draw (rng : RNG) : ℚ × RNG :=
  match rng with
  | [] => (0, [])
  | x :: rest => (x, rest)

/-- Every value in the stream is a legal `np.random.rand()` value. -/
def rngOk (rng : RNG) : Prop := ∀ x ∈ rng, 0 ≤ x ∧ x < 1

/-- `get_edges_by_type(network, edge_type_selection)`: the edges whose
`type` attribute equals the selection (returned with their attributes; the
Python view returns the pairs and the callers read the attributes back off
the graph, which is the same data). -/
def get_edges_by_type (g : Graph) (t : String) : List Edge :=
  g.edges.filter (fun e => e.2.2.type = t)

/-- The affinity transform of `create_support_edge`:
`a_rv = 1 - 4*(1-rv)*rv` applied to a uniform draw `rv`. -/
def affinityTransform (rv : ℚ) : ℚ := 1 - 4 * (1 - rv) * rv

/-- `create_support_edge(n, i, j)` with its uniform draw made explicit:
`n.add_edge(i, j, affinity=a_rv, tokens=0, conviction=0, type="support")`. -/
def create_support_edge (g : Graph) (i j : ℕ) (rv : ℚ) : Graph :=
  addEdgeWith g i j (fun d =>
    { d with affinity := affinityTransform rv, tokens := 0, conviction := 0,
             type := "support" })

/-- Inner loop of `setup_support_edges`' bulk mode (and the whole loop of its
new-proposal mode): `for par in participants: create_support_edge(n, par, j)`,
consuming one uniform draw per participant. -/
def supportLoopPars (g : Graph) (pars : List ℕ) (j : ℕ) (rng : RNG) : Graph × RNG :=
  match pars with
  | [] => (g, rng)
  | par :: rest =>
    supportLoopPars (create_support_edge g par j (draw rng).1) rest j (draw rng).2

/-- Outer loop of `setup_support_edges`' bulk mode:
`for prop in proposals: for par in participants: …`. -/
def supportLoopProps (g : Graph) (pars props : List ℕ) (rng : RNG) : Graph × RNG :=
  match props with
  | [] => (g, rng)
  | prop :: rest =>
    supportLoopProps (supportLoopPars g pars prop rng).1 pars rest
      (supportLoopPars g pars prop rng).2

/-- New-participant mode of `setup_support_edges`:
`for prop in proposals: create_support_edge(n, idx, prop)`. -/
def supportLoopPropsSingle (g : Graph) (idx : ℕ) (props : List ℕ) (rng : RNG) :
    Graph × RNG :=
  match props with
  | [] => (g, rng)
  | prop :: rest =>
    supportLoopPropsSingle (create_support_edge g idx prop (draw rng).1) idx rest
      (draw rng).2

/-- `setup_support_edges(network, idx=None)` from `network_utils.py`.  The
participant/proposal id lists are snapshotted before the loops (the Python
code copies the views into dicts first).  A missing `idx` node (a `KeyError`
in Python) can not arise from the program's call sites and is mapped to the
unchanged graph. -/
def setup_support_edges (g : Graph) (idx : Option ℕ) (rng : RNG) : Graph × RNG :=
  let pars := get_participants g
  let props := get_proposals g none
  match idx with
  | none => supportLoopProps g pars props rng
  | some j =>
    match g.nodes.get? j with
    | some (.proposal _) => supportLoopPars g pars j rng
    | some (.participant _) => supportLoopPropsSingle g j props rng
    | none => (g, rng)

/-- `add_proposal(network, p)`: `j = len(network.nodes)`, add node `j` with
item `p`, then `setup_support_edges(network, j)`; returns `(network, j)`. -/
def add_proposal (g : Graph) (p : Proposal) (rng : RNG) : (Graph × ℕ) × RNG :=
  let j := g.nodes.length
  let g1 : Graph := { g with nodes := g.nodes ++ [Item.proposal p] }
  (((setup_support_edges g1 (some j) rng).1, j), (setup_support_edges g1 (some j) rng).2)

/-- `influence(scale=1, sigmas=3)` with its exponential draw made explicit:
returns the variate only if it exceeds `scale + sigmas*scale**2`, else
`None` ("no influence"). -/
def influence (scale sigmas rv : ℚ) : Option ℚ :=
  if rv > scale + sigmas * scale ^ 2 then some rv else none

/-- Python truthiness of `influence`'s result (`if influence_rv:`):
`None` is falsy, a float is falsy exactly when it is `0.0`. -/
def optTruthy (o : Option ℚ) : Bool :=
  match o with
  | none => false
  | some v => v ≠ 0

/-- One candidate evaluation of the influence generators: if the ordered
pair `(u, v)` has no edge, draw a variate, run `influence()` (default
`scale=1, sigmas=3`), and on a truthy result
`add_edge(u, v, influence=rv, type="influence")`. -/
def influenceStep (g : Graph) (u v : ℕ) (rng : RNG) : Graph × RNG :=
  if hasEdge g u v then (g, rng)
  else
    let rv := (draw rng).1
    let rng' := (draw rng).2
    if optTruthy (influence 1 3 rv) then
      (addEdgeWith g u v
        (fun d => { d with influence := (influence 1 3 rv).getD 0, type := "influence" }), rng')
    else (g, rng')

/-- Inner loop of `setup_influence_edges_bulk`:
`for other in participants: if other ≠ i and not has_edge(i, other): …`. -/
def influenceBulkInner (g : Graph) (i : ℕ) (others : List ℕ) (rng : RNG) :
    Graph × RNG :=
  match others with
  | [] => (g, rng)
  | o :: rest =>
    if o = i then influenceBulkInner g i rest rng
    else
      influenceBulkInner (influenceStep g i o rng).1 i rest (influenceStep g i o rng).2

/-- Outer loop of `setup_influence_edges_bulk` over the snapshotted
participant list. -/
def influenceBulkOuter (g : Graph) (pars others : List ℕ) (rng : RNG) :
    Graph × RNG :=
  match pars with
  | [] => (g, rng)
  | i :: rest =>
    influenceBulkOuter (influenceBulkInner g i others rng).1 rest others
      (influenceBulkInner g i others rng).2

/-- `setup_influence_edges_bulk(network)` from `network_utils.py`. -/
def setup_influence_edges_bulk (g : Graph) (rng : RNG) : Graph × RNG :=
  let pars := get_participants g
  influenceBulkOuter g pars pars rng

/-- Loop body of `setup_influence_edges_single`: for each `other`, evaluate
the incoming `(other, participant)` and then the outgoing
`(participant, other)` candidate edge. -/
def influenceSingleLoop (g : Graph) (participant : ℕ) (others : List ℕ)
    (rng : RNG) : Graph × RNG :=
  match others with
  | [] => (g, rng)
  | o :: rest =>
    let s1 := influenceStep g o participant rng
    let s2 := influenceStep s1.1 participant o s1.2
    influenceSingleLoop s2.1 participant rest s2.2

/-- `setup_influence_edges_single(network, participant)`: the other
participants are the participant ids with `participant` removed
(`del p[participant]`). -/
def setup_influence_edges_single (g : Graph) (participant : ℕ) (rng : RNG) :
    Graph × RNG :=
  let others := (get_participants g).filter (fun i => i ≠ participant)
  influenceSingleLoop g participant others rng

/-- The conflict-edge creation of `loop_over_other_proposals`:
`add_edge(proposal, other)` then set `conflict = 1 - conflict_rv` and
`type = 'conflict'`. -/
def create_conflict_edge (g : Graph) (proposal other : ℕ) (conflict_rv : ℚ) :
    Graph :=
  addEdgeWith g proposal other
    (fun d => { d with conflict := 1 - conflict_rv, type := "conflict" })

/-- `loop_over_other_proposals(network, proposals, proposal)`: for every
other proposal draw `conflict_rv = np.random.rand()`; if it is below `rate`,
create the conflict edge. -/
def loop_over_other_proposals (g : Graph) (props : List ℕ) (proposal : ℕ)
    (rate : ℚ) (rng : RNG) : Graph × RNG :=
  match props with
  | [] => (g, rng)
  | o :: rest =>
    if o = proposal then loop_over_other_proposals g rest proposal rate rng
    else
      let rv := (draw rng).1
      let rng' := (draw rng).2
      if rv < rate then
        loop_over_other_proposals (create_conflict_edge g proposal o rv)
          rest proposal rate rng'
      else loop_over_other_proposals g rest proposal rate rng'

/-- Outer loop of `setup_conflict_edges`' bulk mode:
`for i in proposals: loop_over_other_proposals(network, proposals, i)`. -/
def conflictOuter (g : Graph) (iter props : List ℕ) (rate : ℚ) (rng : RNG) :
    Graph × RNG :=
  match iter with
  | [] => (g, rng)
  | i :: rest =>
    conflictOuter (loop_over_other_proposals g props i rate rng).1 rest props rate
      (loop_over_other_proposals g props i rate rng).2

/-- `setup_conflict_edges(network, proposal=None, rate=.25)` from
`network_utils.py`.  Note the snapshot is `get_proposals(network)` with the
default `status=None`: proposals of every status are paired. -/
def setup_conflict_edges (g : Graph) (proposal : Option ℕ) (rate : ℚ)
    (rng : RNG) : Graph × RNG :=
  let props := get_proposals g none
  match proposal with
  | none => conflictOuter g props props rate rng
  | some p => loop_over_other_proposals g props p rate rng

/-- `np.median` on a list of rationals: sort, then the middle element (odd
length) or the mean of the two middle elements (even length). -/
def median (l : List ℚ) : ℚ :=
  let s := l.mergeSort (fun a b => a ≤ b)
  let n := s.length
  if n % 2 = 1 then s.getD (n / 2) 0
  else (s.getD (n / 2 - 1) 0 + s.getD (n / 2) 0) / 2

/-- `calc_median_affinity(network)`: median of `affinity` over the support
edges; raises (`Exception("The network has 0 support edges!")`) when there
are none. -/
def calc_median_affinity (g : Graph) : Except String ℚ :=
  let supporters := get_edges_by_type g "support"
  if supporters.length = 0 then
    Except.error "The network has 0 support edges!"
  else
    Except.ok (median (supporters.map (fun e => e.2.2.affinity)))

/-- `calc_total_funds_requested(network)`: sum of `funds_requested` over
CANDIDATE proposals. -/
def calc_total_funds_requested (g : Graph) : ℚ :=
  ((get_proposals g (some .CANDIDATE)).map
    (fun i => match g.nodes.getD i (.participant default) with
      | .proposal p => p.funds_requested
      | .participant _ => 0)).sum

/-- Modelled from the spec: `utils.probability(p) -> bool` is not under
`src/`; the spec describes it as a Bernoulli trial with success chance `p`,
modelled as comparing one uniform draw against `p`. -/
def probability (u p : ℚ) : Bool := u < p

/-- Python's `/` on builtin numbers: raises `ZeroDivisionError` when the
denominator is zero, otherwise exact division (floats modelled as ℚ). -/
def pydiv (a b : ℚ) : Except String ℚ :=
  if b = 0 then Except.error "ZeroDivisionError: division by zero"
  else Except.ok (a / b)

/-- `Participant.buy(self)` with the Bernoulli outcome and the uniform draw
made explicit: `engagement_rate = 0.3*sentiment`,
`force = sentiment - config.sentiment_sensitivity`; if the
`probability(engagement_rate)` trial succeeds and `force > 0`, return
`np.random.rand() * force`, else `0`.  `config.sentiment_sensitivity` (the
out-of-scope configuration module) is the `sensitivity` parameter; `trial`
is the Bernoulli outcome of `probability(engagement_rate)`. -/
def Participant.buy (p : Participant) (sensitivity : ℚ) (trial : Bool)
    (u : ℚ) : ℚ :=
  let force := p.sentiment - sensitivity
  if trial ∧ force > 0 then u * force else 0

/-- `Participant.sell(self)`: mirror of `buy` with condition `force < 0`
(the returned `np.random.rand() * force` is then nonpositive). -/
def Participant.sell (p : Participant) (sensitivity : ℚ) (trial : Bool)
    (u : ℚ) : ℚ :=
  let force := p.sentiment - sensitivity
  if trial ∧ force < 0 then u * force else 0

/-- `Participant.create_proposal(total_funds_requested, median_affinity,
funding_pool)`:
`proposal_rate = median_affinity / (1 + total_funds_requested/funding_pool)`,
then `probability(proposal_rate)` (whose uniform draw is `u`).  Both
divisions use Python semantics (`pydiv`). -/
def Participant.create_proposal (_p : Participant)
    (total_funds_requested median_affinity funding_pool u : ℚ) :
    Except String Bool := do
  let pct ← pydiv total_funds_requested funding_pool
  let rate ← pydiv median_affinity (1 + pct)
  pure (probability u rate)

/-- `Proposal.has_enough_conviction(self, funding_pool, token_supply)`.
`trigger_threshold` lives in `convictionvoting.py`, outside `src/`; it is
taken as an arbitrary function parameter `tt`, which the verified properties
do not constrain.  The result pairs the answer with the post-call `self`,
making the absence of mutation explicit. -/
def Proposal.has_enough_conviction (p : Proposal) (tt : ℚ → ℚ → ℚ → ℚ)
    (funding_pool token_supply : ℚ) : Except String Bool × Proposal :=
  if p.status = ProposalStatus.CANDIDATE then
    let threshold := tt p.funds_requested funding_pool token_supply
    if p.conviction < threshold then (Except.ok false, p)
    else (Except.ok true, p)
  else
    (Except.error "Proposal is not a Candidate Proposal and so asking it if it will pass is inappropriate", p)

/-- Overwrite the status of the proposal at node `j` (used to state that
conflict generation is insensitive to proposal status). -/
def setStatus (g : Graph) (j : ℕ) (s : ProposalStatus) : Graph :=
  { g with nodes := g.nodes.modify (fun it =>
      match it with
      | .proposal p => .proposal { p with status := s }
      | .participant q => .participant q) j }

/-- Concrete fixture: a two-node graph whose (participant 0, proposal 1)
pair already carries a support edge with affinity 1/2, tokens 5,
conviction 7. -/
def gSupportPair : Graph :=
  { nodes := [Item.participant ⟨1/2⟩,
      Item.proposal (Proposal.mk 0 ProposalStatus.CANDIDATE 0 100 0)],
    edges := [(0, 1, EdgeData.mk "support" (1/2) 5 7 0 0)] }

/-- Concrete fixture: a network of four participants and no proposals, with
no edges. -/
def gFourPars : Graph :=
  { nodes := [Item.participant ⟨1/2⟩, Item.participant ⟨1/2⟩,
      Item.participant ⟨1/2⟩, Item.participant ⟨1/2⟩],
    edges := [] }

/-- Concrete fixture: a two-participant graph with no edges. -/
def gTwoPars : Graph :=
  { nodes := [Item.participant ⟨1/2⟩, Item.participant ⟨1/2⟩],
    edges := [] }

/-- Concrete fixture: a two-proposal graph whose node 0 is an ACTIVE
proposal and node 1 a CANDIDATE proposal, with no edges. -/
def gTwoProposals : Graph :=
  { nodes := [Item.proposal (Proposal.mk 0 ProposalStatus.ACTIVE 0 50 0),
      Item.proposal (Proposal.mk 0 ProposalStatus.CANDIDATE 0 100 0)],
    edges := [] }

/-- The list of support edges `supportLoopPars` appends when none of the
`(par, j)` pairs has an edge yet: one edge per participant, in order, each
consuming one uniform draw. -/
def newSupport (pars : List ℕ) (j : ℕ) (rng : RNG) : List Edge :=
  match pars with
  | [] => []
  | par :: rest =>
    (par, j, { type := "support", affinity := affinityTransform (draw rng).1,
               tokens := 0, conviction := 0 }) :: newSupport rest j (draw rng).2

/-- Every edge of `g'` already was an edge of `g`, or is an influence edge
at or above the default cutoff `scale + sigmas*scale² = 1 + 3·1²`. -/
def NewEdgesInfluence (g g' : Graph) : Prop :=
  ∀ u v d, getEdge g' u v = some d →
    getEdge g u v = some d ∨
      (d.type = "influence" ∧ 1 + 3 * 1 ^ 2 ≤ d.influence)

/-- Every edge of `g'` already was an edge of `g`, or is a conflict edge
with strength in `(1 - rate, 1]`. -/
def NewEdgesConflict (rate : ℚ) (g g' : Graph) : Prop :=
  ∀ u v d, getEdge g' u v = some d →
    getEdge g u v = some d ∨
      (d.type = "conflict" ∧ 1 - rate < d.conflict ∧ d.conflict ≤ 1)

section Lemmas

theorem keyIs_eq_true {u v : ℕ} {e : Edge} :
    keyIs u v e = true ↔ e.1 = u ∧ e.2.1 = v := by
  simp [keyIs]

theorem keyIs_eq_false {u v : ℕ} {e : Edge} (h : ¬(e.1 = u ∧ e.2.1 = v)) :
    keyIs u v e = false := by
  simp [keyIs]
  intro h1
  exact fun h2 => h ⟨h1, h2⟩

theorem find_edgeUpdate_self (es : List Edge) (u v : ℕ)
    (f : EdgeData → EdgeData) :
    (edgeUpdate es u v f).find? (keyIs u v) =
      some (u, v, f (((es.find? (keyIs u v)).map (fun e => e.2.2)).getD {})) := by
  induction es with
  | nil => simp [edgeUpdate, List.find?, keyIs]
  | cons e rest ih =>
    by_cases h : e.1 = u ∧ e.2.1 = v
    · simp only [edgeUpdate, if_pos h]
      rw [List.find?_cons_of_pos _ (by simp [keyIs]),
          List.find?_cons_of_pos _ (keyIs_eq_true.mpr h)]
      simp
    · simp only [edgeUpdate, if_neg h]
      rw [List.find?_cons_of_neg _ (by simp [keyIs_eq_false h]),
          List.find?_cons_of_neg _ (by simp [keyIs_eq_false h]), ih]

theorem keyIs_pair_false {u v a b : ℕ} (d : EdgeData) (h : ¬(u = a ∧ v = b)) :
    keyIs u v (a, b, d) = false := by
  by_cases h1 : a = u
  · by_cases h2 : b = v
    · exact absurd ⟨h1.symm, h2.symm⟩ h
    · simp [keyIs, h1, h2]
  · simp [keyIs, h1]

theorem find_edgeUpdate_other (es : List Edge) {u v a b : ℕ}
    (f : EdgeData → EdgeData) (h : ¬(u = a ∧ v = b)) :
    (edgeUpdate es a b f).find? (keyIs u v) = es.find? (keyIs u v) := by
  induction es with
  | nil =>
    simp only [edgeUpdate]
    rw [List.find?_cons_of_neg _ (by simp [keyIs_pair_false _ h])]
  | cons e rest ih =>
    by_cases he : e.1 = a ∧ e.2.1 = b
    · simp only [edgeUpdate, if_pos he]
      have hek : keyIs u v e = false := by
        have : e = (a, b, e.2.2) := by
          obtain ⟨e1, e2, e3⟩ := e
          simp only at he
          simp [he.1, he.2]
        rw [this]
        exact keyIs_pair_false _ h
      rw [List.find?_cons_of_neg _ (by simp [keyIs_pair_false _ h]),
          List.find?_cons_of_neg _ (by simp [hek])]
    · simp only [edgeUpdate, if_neg he]
      by_cases hk : keyIs u v e = true
      · rw [List.find?_cons_of_pos _ hk, List.find?_cons_of_pos _ hk]
      · rw [List.find?_cons_of_neg _ (by simpa using hk),
            List.find?_cons_of_neg _ (by simpa using hk), ih]

theorem getEdge_addEdgeWith_self (g : Graph) (u v : ℕ)
    (f : EdgeData → EdgeData) :
    getEdge (addEdgeWith g u v f) u v = some (f ((getEdge g u v).getD {})) := by
  simp only [getEdge, addEdgeWith, find_edgeUpdate_self, Option.map_some]
  cases h : (g.edges.find? (keyIs u v)) <;> simp [h]

theorem getEdge_addEdgeWith_other (g : Graph) {u v a b : ℕ}
    (f : EdgeData → EdgeData) (h : ¬(u = a ∧ v = b)) :
    getEdge (addEdgeWith g a b f) u v = getEdge g u v := by
  simp only [getEdge, addEdgeWith, find_edgeUpdate_other _ _ h]

theorem edgeUpdate_of_not_found (es : List Edge) (u v : ℕ)
    (f : EdgeData → EdgeData) (h : es.find? (keyIs u v) = none) :
    edgeUpdate es u v f = es ++ [(u, v, f {})] := by
  induction es with
  | nil => simp [edgeUpdate]
  | cons e rest ih =>
    rw [List.find?_cons] at h
    split at h
    · exact absurd h (by simp)
    · rename_i hk
      have he : ¬(e.1 = u ∧ e.2.1 = v) := fun hc => by
        simp [keyIs_eq_true.mpr hc] at hk
      simp only [edgeUpdate, if_neg he, ih h, List.cons_append]

theorem draw_ok {rng : RNG} (h : rngOk rng) :
    (0 ≤ (draw rng).1 ∧ (draw rng).1 < 1) ∧ rngOk (draw rng).2 := by
  cases rng with
  | nil => exact ⟨⟨le_refl 0, by norm_num [draw]⟩, h⟩
  | cons x rest =>
    refine ⟨h x (by simp [draw]), fun y hy => h y ?_⟩
    simp only [draw] at hy ⊢
    exact List.mem_cons_of_mem x hy

theorem median_singleton (x : ℚ) : median [x] = x := by
  simp [median, List.mergeSort_singleton]

theorem affinityTransform_bounds {rv : ℚ} (h0 : 0 ≤ rv) (h1 : rv < 1) :
    0 ≤ affinityTransform rv ∧ affinityTransform rv ≤ 1 := by
  constructor
  · unfold affinityTransform
    nlinarith [sq_nonneg (1 - 2 * rv)]
  · unfold affinityTransform
    nlinarith [mul_nonneg (by linarith : (0:ℚ) ≤ 1 - rv) h0]

theorem get_participants_nodup (g : Graph) : (get_participants g).Nodup :=
  (List.nodup_range _).filter _

theorem get_proposals_nodup (g : Graph) (status : Option ProposalStatus) :
    (get_proposals g status).Nodup :=
  (List.nodup_range _).filter _

theorem create_support_edge_getEdge_other (g : Graph) {u v a b : ℕ} (rv : ℚ)
    (h : ¬(u = a ∧ v = b)) :
    getEdge (create_support_edge g a b rv) u v = getEdge g u v :=
  getEdge_addEdgeWith_other g _ h

theorem create_support_edge_getEdge_self (g : Graph) (a b : ℕ) (rv : ℚ) :
    getEdge (create_support_edge g a b rv) a b =
      some { (getEdge g a b).getD {} with
        affinity := affinityTransform rv,
        tokens := 0, conviction := 0, type := "support" } :=
  getEdge_addEdgeWith_self g a b _

theorem supportLoopPars_getEdge_other (pars : List ℕ) (g : Graph) (j : ℕ)
    (rng : RNG) {u v : ℕ} (h : ∀ par ∈ pars, ¬(u = par ∧ v = j)) :
    getEdge (supportLoopPars g pars j rng).1 u v = getEdge g u v := by
  induction pars generalizing g rng with
  | nil => rfl
  | cons par rest ih =>
    rw [supportLoopPars, ih _ _ (fun q hq => h q (List.mem_cons_of_mem par hq)),
        create_support_edge_getEdge_other _ _ (h par (List.mem_cons_self _ _))]

theorem supportLoopPars_getEdge_mem (pars : List ℕ) (g : Graph) (j : ℕ)
    (rng : RNG) (hnd : pars.Nodup) {i : ℕ} (hi : i ∈ pars) :
    ∃ d, getEdge (supportLoopPars g pars j rng).1 i j = some d ∧
      d.type = "support" ∧ d.tokens = 0 ∧ d.conviction = 0 := by
  induction pars generalizing g rng with
  | nil => cases hi
  | cons par rest ih =>
    rcases List.mem_cons.mp hi with heq | hmem
    · subst heq
      rw [supportLoopPars,
          supportLoopPars_getEdge_other rest _ j _
            (fun q hq hc => (List.nodup_cons.mp hnd).1 (by rw [hc.1]; exact hq)),
          create_support_edge_getEdge_self]
      exact ⟨_, rfl, rfl, rfl, rfl⟩
    · rw [supportLoopPars]
      exact ih _ _ (List.nodup_cons.mp hnd).2 hmem

theorem supportLoopProps_getEdge_other (props : List ℕ) (g : Graph)
    (pars : List ℕ) (rng : RNG) {u v : ℕ} (h : ∀ prop ∈ props, v ≠ prop) :
    getEdge (supportLoopProps g pars props rng).1 u v = getEdge g u v := by
  induction props generalizing g rng with
  | nil => rfl
  | cons prop rest ih =>
    rw [supportLoopProps, ih _ _ (fun q hq => h q (List.mem_cons_of_mem prop hq)),
        supportLoopPars_getEdge_other pars _ prop _
          (fun q _ hc => h prop (List.mem_cons_self _ _) hc.2)]

theorem supportLoopProps_getEdge_mem (props : List ℕ) (g : Graph)
    (pars : List ℕ) (rng : RNG) (hndp : props.Nodup) (hnd : pars.Nodup)
    {j i : ℕ} (hj : j ∈ props) (hi : i ∈ pars) :
    ∃ d, getEdge (supportLoopProps g pars props rng).1 i j = some d ∧
      d.type = "support" ∧ d.tokens = 0 ∧ d.conviction = 0 := by
  induction props generalizing g rng with
  | nil => cases hj
  | cons prop rest ih =>
    rcases List.mem_cons.mp hj with heq | hmem
    · subst heq
      rw [supportLoopProps,
          supportLoopProps_getEdge_other rest _ pars _
            (fun q hq hc => (List.nodup_cons.mp hndp).1 (by rw [hc]; exact hq))]
      exact supportLoopPars_getEdge_mem pars g j rng hnd hi
    · rw [supportLoopProps]
      exact ih _ _ (List.nodup_cons.mp hndp).2 hmem

theorem find_none_of_no_target (es : List Edge) (u v : ℕ)
    (h : ∀ e ∈ es, e.2.1 ≠ v) : es.find? (keyIs u v) = none := by
  rw [List.find?_eq_none]
  intro e he hk
  exact h e he (keyIs_eq_true.mp hk).2

theorem supportLoopPars_fresh (pars : List ℕ) (g : Graph) (j : ℕ) (rng : RNG)
    (hnd : pars.Nodup)
    (hfresh : ∀ i ∈ pars, g.edges.find? (keyIs i j) = none) :
    (supportLoopPars g pars j rng).1 =
      { g with edges := g.edges ++ newSupport pars j rng } := by
  induction pars generalizing g rng with
  | nil => simp [supportLoopPars, newSupport]
  | cons par rest ih =>
    rw [supportLoopPars]
    have hupd : create_support_edge g par j (draw rng).1 =
        { g with edges := g.edges ++
            [(par, j, { type := "support",
                        affinity := affinityTransform (draw rng).1,
                        tokens := 0, conviction := 0 })] } := by
      unfold create_support_edge addEdgeWith
      rw [edgeUpdate_of_not_found _ _ _ _ (hfresh par (List.mem_cons_self _ _))]
    rw [hupd, ih _ _ (List.nodup_cons.mp hnd).2 ?fresh]
    · simp [newSupport, List.append_assoc]
    case fresh =>
      intro i hi
      have hne : par ≠ i := fun hc =>
        (List.nodup_cons.mp hnd).1 (by rw [hc]; exact hi)
      rw [List.find?_append, hfresh i (List.mem_cons_of_mem par hi),
          Option.none_or, List.find?_cons_of_neg _ (by simp [keyIs, hne])]
      rfl

theorem newSupport_length (pars : List ℕ) (j : ℕ) (rng : RNG) :
    (newSupport pars j rng).length = pars.length := by
  induction pars generalizing rng with
  | nil => rfl
  | cons par rest ih => simp [newSupport, ih]

theorem newSupport_forall (pars : List ℕ) (j : ℕ) (rng : RNG)
    (hrng : rngOk rng) :
    ∀ e ∈ newSupport pars j rng, e.2.1 = j ∧ e.1 ∈ pars ∧
      e.2.2.type = "support" ∧ e.2.2.tokens = 0 ∧ e.2.2.conviction = 0 ∧
      0 ≤ e.2.2.affinity ∧ e.2.2.affinity ≤ 1 := by
  induction pars generalizing rng with
  | nil => intro e he; cases he
  | cons par rest ih =>
    intro e he
    rcases List.mem_cons.mp he with heq | hmem
    · subst heq
      obtain ⟨⟨hd0, hd1⟩, _⟩ := draw_ok hrng
      obtain ⟨hb0, hb1⟩ := affinityTransform_bounds hd0 hd1
      exact ⟨rfl, List.mem_cons_self _ _, rfl, rfl, rfl, hb0, hb1⟩
    · obtain ⟨h1, h2, h3⟩ := ih (draw rng).2 (draw_ok hrng).2 e hmem
      exact ⟨h1, List.mem_cons_of_mem par h2, h3⟩

theorem newSupport_mem (pars : List ℕ) (j : ℕ) (rng : RNG) {i : ℕ}
    (hi : i ∈ pars) : ∃ d, (i, j, d) ∈ newSupport pars j rng := by
  induction pars generalizing rng with
  | nil => cases hi
  | cons par rest ih =>
    rcases List.mem_cons.mp hi with heq | hmem
    · subst heq
      exact ⟨_, List.mem_cons_self _ _⟩
    · obtain ⟨d, hd⟩ := ih (draw rng).2 hmem
      exact ⟨d, List.mem_cons_of_mem _ hd⟩

theorem get_participants_append_proposal (g : Graph) (p : Proposal) :
    get_participants { g with nodes := g.nodes ++ [Item.proposal p] } =
      get_participants g := by
  unfold get_participants
  simp only [List.length_append, List.length_cons, List.length_nil]
  rw [show g.nodes.length + 1 = g.nodes.length + 1 from rfl,
      List.range_succ, List.filter_append]
  have hlast : (List.filter
      (fun i => ((g.nodes ++ [Item.proposal p]).getD i (.proposal default)).isParticipant)
      [g.nodes.length]) = [] := by
    have : (g.nodes ++ [Item.proposal p]).getD g.nodes.length (.proposal default) =
        Item.proposal p := by
      rw [List.getD]
      simp
    simp [this, Item.isParticipant]
  rw [hlast, List.append_nil]
  refine List.filter_congr ?_
  intro i hi
  have hilt : i < g.nodes.length := List.mem_range.mp hi
  rw [List.getD_append _ _ _ _ hilt]

end Lemmas

section Claims

/-- C3: `Participant.create_proposal` called with `funding_pool = 0` fails
with a domain error (`ZeroDivisionError` at
`total_funds_requested/funding_pool`); it never returns a value computed by
silently propagating NaN or infinity through
`proposal_rate = median_affinity / (1 + total_funds_requested/funding_pool)`. -/
theorem create_proposal_zero_funding_pool_raises (p : Participant)
    (total_funds_requested median_affinity u : ℚ) :
    p.create_proposal total_funds_requested median_affinity 0 u =
      Except.error "ZeroDivisionError: division by zero" := rfl

/-- C4: `Proposal.has_enough_conviction` raises a state error whenever the
proposal's status is not CANDIDATE; on a CANDIDATE proposal it returns
`false` exactly when conviction is strictly below the recomputed threshold
and `true` exactly when conviction is at or above it, and it never mutates
the proposal.  The threshold function `tt` (`trigger_threshold`, which lives
outside the verified sources) is arbitrary. -/
theorem has_enough_conviction_spec (p : Proposal) (tt : ℚ → ℚ → ℚ → ℚ)
    (funding_pool token_supply : ℚ) :
    (p.status ≠ ProposalStatus.CANDIDATE →
      (p.has_enough_conviction tt funding_pool token_supply).1 =
        Except.error "Proposal is not a Candidate Proposal and so asking it if it will pass is inappropriate") ∧
    (p.status = ProposalStatus.CANDIDATE →
      ((p.has_enough_conviction tt funding_pool token_supply).1 = Except.ok false ↔
        p.conviction < tt p.funds_requested funding_pool token_supply) ∧
      ((p.has_enough_conviction tt funding_pool token_supply).1 = Except.ok true ↔
        tt p.funds_requested funding_pool token_supply ≤ p.conviction)) ∧
    (p.has_enough_conviction tt funding_pool token_supply).2 = p := by
  refine ⟨fun hs => ?_, fun hs => ?_, ?_⟩
  · simp [Proposal.has_enough_conviction, hs]
  · by_cases hc : p.conviction < tt p.funds_requested funding_pool token_supply
    · simp [Proposal.has_enough_conviction, hs, hc, not_le.mpr hc]
    · simp [Proposal.has_enough_conviction, hs, hc, not_lt.mp hc]
  · by_cases hs : p.status = ProposalStatus.CANDIDATE
    · by_cases hc : p.conviction < tt p.funds_requested funding_pool token_supply
      · simp [Proposal.has_enough_conviction, hs, hc]
      · simp [Proposal.has_enough_conviction, hs, hc]
    · simp [Proposal.has_enough_conviction, hs]

/-- Witness for C4: a concrete ACTIVE proposal raises the state error; a
concrete CANDIDATE proposal with conviction 5 below threshold 7 answers
`ok false` and is returned unchanged. -/
theorem has_enough_conviction_witness :
    ((Proposal.mk 0 ProposalStatus.ACTIVE 0 0 0).status ≠ ProposalStatus.CANDIDATE ∧
      ((Proposal.mk 0 ProposalStatus.ACTIVE 0 0 0).has_enough_conviction
          (fun _ _ _ => 7) 1 1).1 =
        Except.error "Proposal is not a Candidate Proposal and so asking it if it will pass is inappropriate") ∧
    ((Proposal.mk 5 ProposalStatus.CANDIDATE 0 100 0).status = ProposalStatus.CANDIDATE ∧
      (((Proposal.mk 5 ProposalStatus.CANDIDATE 0 100 0).has_enough_conviction
          (fun _ _ _ => 7) 1 1).1 = Except.ok false ↔ (5:ℚ) < 7) ∧
      ((Proposal.mk 5 ProposalStatus.CANDIDATE 0 100 0).has_enough_conviction
          (fun _ _ _ => 7) 1 1).2 = Proposal.mk 5 ProposalStatus.CANDIDATE 0 100 0) :=
  ⟨⟨by decide,
    (has_enough_conviction_spec (Proposal.mk 0 ProposalStatus.ACTIVE 0 0 0)
      (fun _ _ _ => 7) 1 1).1 (by decide)⟩,
   ⟨rfl,
    ((has_enough_conviction_spec (Proposal.mk 5 ProposalStatus.CANDIDATE 0 100 0)
      (fun _ _ _ => 7) 1 1).2.1 rfl).1,
    (has_enough_conviction_spec (Proposal.mk 5 ProposalStatus.CANDIDATE 0 100 0)
      (fun _ _ _ => 7) 1 1).2.2⟩⟩

/-- C5: `calc_median_affinity` raises on every graph with zero support
edges, and on a graph whose support-edge list is a single edge it returns
that edge's affinity. -/
theorem calc_median_affinity_spec :
    (∀ g : Graph, (get_edges_by_type g "support").length = 0 →
      calc_median_affinity g = Except.error "The network has 0 support edges!") ∧
    (∀ (g : Graph) (u v : ℕ) (d : EdgeData),
      get_edges_by_type g "support" = [(u, v, d)] →
      calc_median_affinity g = Except.ok d.affinity) := by
  constructor
  · intro g h
    simp [calc_median_affinity, h]
  · intro g u v d h
    simp [calc_median_affinity, h, median_singleton]

/-- Witness for C5: the empty graph raises, and a graph with exactly one
support edge of affinity 0.42 yields 0.42. -/
theorem calc_median_affinity_witness :
    ((get_edges_by_type (Graph.mk [] []) "support").length = 0 ∧
      calc_median_affinity (Graph.mk [] []) =
        Except.error "The network has 0 support edges!") ∧
    (get_edges_by_type
        (Graph.mk [Item.participant ⟨1/2⟩,
            Item.proposal (Proposal.mk 0 ProposalStatus.CANDIDATE 0 100 0)]
          [(0, 1, { type := "support", affinity := 21/50 })]) "support" =
        [(0, 1, { type := "support", affinity := 21/50 })] ∧
      calc_median_affinity
        (Graph.mk [Item.participant ⟨1/2⟩,
            Item.proposal (Proposal.mk 0 ProposalStatus.CANDIDATE 0 100 0)]
          [(0, 1, { type := "support", affinity := 21/50 })]) =
        Except.ok (({ type := "support", affinity := 21/50 } : EdgeData).affinity)) :=
  ⟨⟨rfl, calc_median_affinity_spec.1 (Graph.mk [] []) rfl⟩,
   ⟨rfl, calc_median_affinity_spec.2
      (Graph.mk [Item.participant ⟨1/2⟩,
          Item.proposal (Proposal.mk 0 ProposalStatus.CANDIDATE 0 100 0)]
        [(0, 1, { type := "support", affinity := 21/50 })]) 0 1
      { type := "support", affinity := 21/50 } rfl⟩⟩

/-- C9: `buy` returns a strictly positive value only when its Bernoulli
trial succeeded and `force = sentiment - sentiment_sensitivity` is strictly
positive, and returns 0 whenever that condition fails; `sell` is the mirror
(negative only when the trial succeeded and `force < 0`, else 0); and for a
fixed sentiment at most one of `buy`/`sell` can return a nonzero value. -/
theorem buy_sell_spec (p : Participant) (sensitivity : ℚ) (t1 t2 : Bool)
    (u1 u2 : ℚ) :
    (0 < p.buy sensitivity t1 u1 → t1 = true ∧ 0 < p.sentiment - sensitivity) ∧
    (¬(t1 = true ∧ 0 < p.sentiment - sensitivity) → p.buy sensitivity t1 u1 = 0) ∧
    (p.sell sensitivity t2 u2 < 0 → t2 = true ∧ p.sentiment - sensitivity < 0) ∧
    (¬(t2 = true ∧ p.sentiment - sensitivity < 0) → p.sell sensitivity t2 u2 = 0) ∧
    ¬(p.buy sensitivity t1 u1 ≠ 0 ∧ p.sell sensitivity t2 u2 ≠ 0) := by
  simp only [Participant.buy, Participant.sell]
  by_cases h1 : t1 = true ∧ 0 < p.sentiment - sensitivity <;>
    by_cases h2 : t2 = true ∧ p.sentiment - sensitivity < 0
  · exact absurd h2.2 (not_lt.mpr (le_of_lt h1.2))
  · refine ⟨fun _ => h1, fun hc => absurd h1 hc, ?_, ?_, ?_⟩
    · rw [if_neg (by simpa using h2)]
      exact fun hlt => absurd hlt (lt_irrefl 0)
    · intro _
      rw [if_neg (by simpa using h2)]
    · exact fun hc => hc.2 (by rw [if_neg (by simpa using h2)])
  · refine ⟨?_, ?_, fun _ => h2, fun hc => absurd h2 hc, ?_⟩
    · rw [if_neg (by simpa using h1)]
      exact fun hlt => absurd hlt (lt_irrefl 0)
    · intro _
      rw [if_neg (by simpa using h1)]
    · exact fun hc => hc.1 (by rw [if_neg (by simpa using h1)])
  · refine ⟨?_, ?_, ?_, ?_, ?_⟩
    · rw [if_neg (by simpa using h1)]
      exact fun hlt => absurd hlt (lt_irrefl 0)
    · intro _
      rw [if_neg (by simpa using h1)]
    · rw [if_neg (by simpa using h2)]
      exact fun hlt => absurd hlt (lt_irrefl 0)
    · intro _
      rw [if_neg (by simpa using h2)]
    · exact fun hc => hc.1 (by rw [if_neg (by simpa using h1)])

/-- C10: the affinity `1 - 4·(1-rv)·rv` written on a freshly generated
support edge lies in `[0,1]` for every legal uniform draw `rv ∈ [0,1)` — in
particular no support edge is ever created with a negative affinity. -/
theorem support_affinity_in_unit_interval (g : Graph) (i j : ℕ) (rv : ℚ)
    (h0 : 0 ≤ rv) (h1 : rv < 1) :
    ∃ d, getEdge (create_support_edge g i j rv) i j = some d ∧
      d.affinity = affinityTransform rv ∧ 0 ≤ d.affinity ∧ d.affinity ≤ 1 := by
  refine ⟨_, getEdge_addEdgeWith_self g i j _, rfl, ?_, ?_⟩
  · show 0 ≤ affinityTransform rv
    unfold affinityTransform
    nlinarith [sq_nonneg (1 - 2 * rv)]
  · show affinityTransform rv ≤ 1
    unfold affinityTransform
    nlinarith [mul_nonneg (by linarith : (0:ℚ) ≤ 1 - rv) h0]

/-- Witness for C10: the draw 1/3 is legal and yields affinity
`1 - 4·(2/3)·(1/3) = 1/9 ∈ [0,1]` on the created edge. -/
theorem support_affinity_witness :
    ((0:ℚ) ≤ 1/3 ∧ (1/3:ℚ) < 1) ∧
    (∃ d, getEdge (create_support_edge (Graph.mk [] []) 0 1 (1/3)) 0 1 = some d ∧
      d.affinity = affinityTransform (1/3) ∧ 0 ≤ d.affinity ∧ d.affinity ≤ 1) :=
  ⟨⟨by norm_num, by norm_num⟩,
   support_affinity_in_unit_interval (Graph.mk [] []) 0 1 (1/3)
     (by norm_num) (by norm_num)⟩

/-- Counterexample to C1: on a graph whose (participant 0, proposal 1) pair
already carries a support edge (affinity 1/2, tokens 5, conviction 7), a
bulk `setup_support_edges` pass does not skip the pair: it redraws the
affinity (draw 0 gives affinity 1) and resets tokens and conviction to 0,
so the edge's attributes are changed. -/
theorem setup_support_edges_overwrites_existing :
    rngOk [0] ∧
    getEdge gSupportPair 0 1 = some (EdgeData.mk "support" (1/2) 5 7 0 0) ∧
    getEdge (setup_support_edges gSupportPair none [0]).1 0 1 =
      some (EdgeData.mk "support" 1 0 0 0 0) ∧
    getEdge (setup_support_edges gSupportPair none [0]).1 0 1 ≠
      getEdge gSupportPair 0 1 := by
  have hold : getEdge gSupportPair 0 1 =
      some (EdgeData.mk "support" (1/2) 5 7 0 0) := rfl
  have hgraph : (setup_support_edges gSupportPair none [0]).1 =
      create_support_edge gSupportPair 0 1 0 := rfl
  have hnew : getEdge (setup_support_edges gSupportPair none [0]).1 0 1 =
      some (EdgeData.mk "support" 1 0 0 0 0) := by
    rw [hgraph, create_support_edge_getEdge_self, hold]
    show some (EdgeData.mk "support" (affinityTransform 0) 0 0 0 0) = _
    simp only [Option.some.injEq, EdgeData.mk.injEq]
    norm_num [affinityTransform]
  refine ⟨?_, hold, hnew, ?_⟩
  · intro x hx
    rw [List.mem_singleton] at hx
    subst hx
    norm_num
  · rw [hnew, hold]
    intro hc
    simp only [Option.some.injEq, EdgeData.mk.injEq] at hc
    exact absurd hc.2.2.1 (by norm_num)

/-- C1 as amended: `setup_support_edges` writes a support edge for every
(participant, proposal) pair whether or not one already exists — after a
bulk pass every such pair carries an edge with `type="support"`,
`tokens=0`, `conviction=0` (a pre-existing edge's attributes are
overwritten, not preserved). -/
theorem setup_support_edges_writes_every_pair (g : Graph) (rng : RNG) :
    ∀ j ∈ get_proposals g none, ∀ i ∈ get_participants g,
      ∃ d, getEdge (setup_support_edges g none rng).1 i j = some d ∧
        d.type = "support" ∧ d.tokens = 0 ∧ d.conviction = 0 := by
  intro j hj i hi
  unfold setup_support_edges
  exact supportLoopProps_getEdge_mem _ g _ rng (get_proposals_nodup g none)
    (get_participants_nodup g) hj hi

/-- Witness for the amended C1 at the counterexample graph: node 1 is a
proposal, node 0 a participant, and the pair carries a support edge with
`tokens = 0` and `conviction = 0` after the bulk pass. -/
theorem setup_support_edges_writes_every_pair_witness :
    (1 ∈ get_proposals gSupportPair none ∧ 0 ∈ get_participants gSupportPair) ∧
    ∃ d, getEdge (setup_support_edges gSupportPair none [0]).1 0 1 = some d ∧
      d.type = "support" ∧ d.tokens = 0 ∧ d.conviction = 0 :=
  ⟨⟨by decide, by decide⟩,
   setup_support_edges_writes_every_pair gSupportPair [0] 1 (by decide) 0 (by decide)⟩

/-- C6: `add_proposal` on a graph with `P` participants inserts exactly one
node at id `len(network.nodes)`, returns that id, appends exactly `P` new
edges — one support edge from every participant to the new proposal, each
with `type="support"`, `conviction=0`, `tokens=0`, and affinity in
`[-3,1]` — and leaves every pre-existing node and edge unchanged (old nodes
and edges are a prefix of the new lists). -/
theorem add_proposal_spec (g : Graph) (p : Proposal) (rng : RNG)
    (hwf : ∀ e ∈ g.edges, e.2.1 < g.nodes.length) (hrng : rngOk rng) :
    (add_proposal g p rng).1.2 = g.nodes.length ∧
    (add_proposal g p rng).1.1.nodes = g.nodes ++ [Item.proposal p] ∧
    ∃ L, (add_proposal g p rng).1.1.edges = g.edges ++ L ∧
      L.length = (get_participants g).length ∧
      (∀ e ∈ L, e.2.1 = g.nodes.length ∧ e.1 ∈ get_participants g ∧
        e.2.2.type = "support" ∧ e.2.2.tokens = 0 ∧ e.2.2.conviction = 0 ∧
        -3 ≤ e.2.2.affinity ∧ e.2.2.affinity ≤ 1) ∧
      ∀ i ∈ get_participants g, ∃ d, (i, g.nodes.length, d) ∈ L := by
  have hnode : (g.nodes ++ [Item.proposal p]).get? g.nodes.length =
      some (Item.proposal p) := by
    rw [List.get?_append_right (le_refl _)]
    simp
  have hpars : get_participants { g with nodes := g.nodes ++ [Item.proposal p] } =
      get_participants g := get_participants_append_proposal g p
  have hrun : setup_support_edges { g with nodes := g.nodes ++ [Item.proposal p] }
      (some g.nodes.length) rng =
      supportLoopPars { g with nodes := g.nodes ++ [Item.proposal p] }
        (get_participants g) g.nodes.length rng := by
    unfold setup_support_edges
    rw [hpars]
    simp only [hnode]
  have hfresh : ∀ i ∈ get_participants g,
      ({ g with nodes := g.nodes ++ [Item.proposal p] } : Graph).edges.find?
        (keyIs i g.nodes.length) = none := by
    intro i _
    exact find_none_of_no_target _ i _ (fun e he => Nat.ne_of_lt (hwf e he))
  have hmain := supportLoopPars_fresh (get_participants g)
    { g with nodes := g.nodes ++ [Item.proposal p] } g.nodes.length rng
    (get_participants_nodup g) hfresh
  have hres : (add_proposal g p rng).1.1 =
      { g with nodes := g.nodes ++ [Item.proposal p],
               edges := g.edges ++
                 newSupport (get_participants g) g.nodes.length rng } := by
    show (setup_support_edges { g with nodes := g.nodes ++ [Item.proposal p] }
      (some g.nodes.length) rng).1 = _
    rw [hrun, hmain]
  refine ⟨rfl, ?_, ?_⟩
  · rw [hres]
  · refine ⟨newSupport (get_participants g) g.nodes.length rng, ?_,
      newSupport_length _ _ _, ?_, ?_⟩
    · rw [hres]
    · intro e he
      obtain ⟨h1, h2, h3, h4, h5, h6, h7⟩ := newSupport_forall _ _ _ hrng e he
      exact ⟨h1, h2, h3, h4, h5, by linarith, h7⟩
    · intro i hi
      exact newSupport_mem _ _ _ hi

/-- Witness for C6: adding a proposal to a 4-participant, 0-proposal,
0-edge network with four legal uniform draws. -/
theorem add_proposal_witness :
    ((∀ e ∈ gFourPars.edges, e.2.1 < gFourPars.nodes.length) ∧
      rngOk [0, 1/4, 1/2, 3/4]) ∧
    ((add_proposal gFourPars (Proposal.mk 0 ProposalStatus.CANDIDATE 0 100 0)
        [0, 1/4, 1/2, 3/4]).1.2 = gFourPars.nodes.length ∧
     (add_proposal gFourPars (Proposal.mk 0 ProposalStatus.CANDIDATE 0 100 0)
        [0, 1/4, 1/2, 3/4]).1.1.nodes = gFourPars.nodes ++
          [Item.proposal (Proposal.mk 0 ProposalStatus.CANDIDATE 0 100 0)] ∧
     ∃ L, (add_proposal gFourPars (Proposal.mk 0 ProposalStatus.CANDIDATE 0 100 0)
        [0, 1/4, 1/2, 3/4]).1.1.edges = gFourPars.edges ++ L ∧
       L.length = (get_participants gFourPars).length ∧
       (∀ e ∈ L, e.2.1 = gFourPars.nodes.length ∧ e.1 ∈ get_participants gFourPars ∧
         e.2.2.type = "support" ∧ e.2.2.tokens = 0 ∧ e.2.2.conviction = 0 ∧
         -3 ≤ e.2.2.affinity ∧ e.2.2.affinity ≤ 1) ∧
       ∀ i ∈ get_participants gFourPars, ∃ d, (i, gFourPars.nodes.length, d) ∈ L) :=
  ⟨⟨by simp [gFourPars], by
      intro x hx
      simp only [List.mem_cons, List.not_mem_nil, or_false] at hx
      rcases hx with rfl | rfl | rfl | rfl <;> norm_num⟩,
   add_proposal_spec gFourPars (Proposal.mk 0 ProposalStatus.CANDIDATE 0 100 0)
     [0, 1/4, 1/2, 3/4] (by simp [gFourPars]) (by
      intro x hx
      simp only [List.mem_cons, List.not_mem_nil, or_false] at hx
      rcases hx with rfl | rfl | rfl | rfl <;> norm_num)⟩

theorem create_conflict_edge_getEdge_self (g : Graph) (a b : ℕ) (rv : ℚ) :
    getEdge (create_conflict_edge g a b rv) a b =
      some { (getEdge g a b).getD {} with
        conflict := 1 - rv, type := "conflict" } :=
  getEdge_addEdgeWith_self g a b _

theorem create_conflict_edge_getEdge_other (g : Graph) {u v a b : ℕ} (rv : ℚ)
    (h : ¬(u = a ∧ v = b)) :
    getEdge (create_conflict_edge g a b rv) u v = getEdge g u v :=
  getEdge_addEdgeWith_other g _ h

theorem loop_over_other_proposals_new (props : List ℕ) (g : Graph) (prop : ℕ)
    (rate : ℚ) (rng : RNG) (hrng : rngOk rng) :
    NewEdgesConflict rate g (loop_over_other_proposals g props prop rate rng).1 := by
  induction props generalizing g rng with
  | nil => exact fun u v d h => Or.inl h
  | cons o rest ih =>
    simp only [loop_over_other_proposals]
    by_cases ho : o = prop
    · simp only [if_pos ho]
      exact ih g rng hrng
    · simp only [if_neg ho]
      obtain ⟨⟨hd0, hd1⟩, hrng2⟩ := draw_ok hrng
      by_cases hlt : (draw rng).1 < rate
      · simp only [if_pos hlt]
        intro u v d h
        rcases ih _ _ hrng2 u v d h with hold | hnew
        · by_cases huv : u = prop ∧ v = o
          · rw [huv.1, huv.2, create_conflict_edge_getEdge_self] at hold
            have hd := Option.some.inj hold
            subst hd
            refine Or.inr ⟨rfl, ?_, ?_⟩
            · show 1 - rate < 1 - (draw rng).1
              linarith
            · show 1 - (draw rng).1 ≤ 1
              linarith
          · rw [create_conflict_edge_getEdge_other _ _ huv] at hold
            exact Or.inl hold
        · exact Or.inr hnew
      · simp only [if_neg hlt]
        exact ih g _ hrng2

/-- C8: a conflict edge created from a uniform draw `d` carries strength
exactly `1 - d`, and with `rate = 1/4` every edge created by
`loop_over_other_proposals` (the conflict generator's loop) has strength
strictly above `1 - 1/4 = 3/4` and at most `1`. -/
theorem conflict_strength_spec (g : Graph) (props : List ℕ) (prop q : ℕ)
    (d : ℚ) (rng : RNG) (hd0 : 0 ≤ d) (hrng : rngOk rng) :
    getEdge (create_conflict_edge g prop q d) prop q =
      some { (getEdge g prop q).getD {} with
        conflict := 1 - d, type := "conflict" } ∧
    NewEdgesConflict (1/4) g
      (loop_over_other_proposals g props prop (1/4) rng).1 ∧
    (d < 1/4 → 3/4 < 1 - d ∧ 1 - d ≤ 1) :=
  ⟨create_conflict_edge_getEdge_self g prop q d,
   loop_over_other_proposals_new props g prop (1/4) rng hrng,
   fun hlt => ⟨by linarith, by linarith⟩⟩

/-- Witness for C8: draw 1/10 on the two-proposal fixture; the created edge
carries strength 1 - 1/10 = 9/10 ∈ (3/4, 1]. -/
theorem conflict_strength_witness :
    ((0:ℚ) ≤ 1/10 ∧ rngOk [1/10]) ∧
    (getEdge (create_conflict_edge gTwoProposals 0 1 (1/10)) 0 1 =
      some { (getEdge gTwoProposals 0 1).getD {} with
        conflict := 1 - 1/10, type := "conflict" } ∧
     NewEdgesConflict (1/4) gTwoProposals
       (loop_over_other_proposals gTwoProposals [0, 1] 0 (1/4) [1/10]).1 ∧
     ((1:ℚ)/10 < 1/4 → (3:ℚ)/4 < 1 - 1/10 ∧ 1 - (1:ℚ)/10 ≤ 1)) :=
  ⟨⟨by norm_num, by
      intro x hx
      rw [List.mem_singleton] at hx
      subst hx
      norm_num⟩,
   conflict_strength_spec gTwoProposals [0, 1] 0 1 (1/10) [1/10] (by norm_num)
     (by
      intro x hx
      rw [List.mem_singleton] at hx
      subst hx
      norm_num)⟩

theorem setStatus_create_conflict_edge (g : Graph) (j : ℕ) (s : ProposalStatus)
    (a b : ℕ) (rv : ℚ) :
    create_conflict_edge (setStatus g j s) a b rv =
      setStatus (create_conflict_edge g a b rv) j s := rfl

theorem setStatus_loop_over_other_proposals (props : List ℕ) (g : Graph)
    (j : ℕ) (s : ProposalStatus) (prop : ℕ) (rate : ℚ) (rng : RNG) :
    loop_over_other_proposals (setStatus g j s) props prop rate rng =
      (setStatus (loop_over_other_proposals g props prop rate rng).1 j s,
       (loop_over_other_proposals g props prop rate rng).2) := by
  induction props generalizing g rng with
  | nil => rfl
  | cons o rest ih =>
    simp only [loop_over_other_proposals]
    by_cases ho : o = prop
    · simp only [if_pos ho]
      exact ih g rng
    · simp only [if_neg ho]
      by_cases hlt : (draw rng).1 < rate
      · simp only [if_pos hlt, setStatus_create_conflict_edge]
        exact ih _ _
      · simp only [if_neg hlt]
        exact ih g _

theorem setStatus_conflictOuter (iter : List ℕ) (g : Graph) (j : ℕ)
    (s : ProposalStatus) (props : List ℕ) (rate : ℚ) (rng : RNG) :
    conflictOuter (setStatus g j s) iter props rate rng =
      (setStatus (conflictOuter g iter props rate rng).1 j s,
       (conflictOuter g iter props rate rng).2) := by
  induction iter generalizing g rng with
  | nil => rfl
  | cons i rest ih =>
    simp only [conflictOuter, setStatus_loop_over_other_proposals]
    exact ih _ _

theorem get_proposals_none_eq (g : Graph) :
    get_proposals g none = (List.range g.nodes.length).filter
      (fun i => (g.nodes.getD i (.participant default)).isProposal) := by
  unfold get_proposals
  refine List.filter_congr ?_
  intro i _
  cases hg : g.nodes.getD i (.participant default) <;>
    simp [hg, statusMatches, Item.isProposal]

theorem setStatus_isProposal_getD (g : Graph) (j : ℕ) (s : ProposalStatus)
    (i : ℕ) :
    ((setStatus g j s).nodes.getD i (.participant default)).isProposal =
      (g.nodes.getD i (.participant default)).isProposal := by
  show ((g.nodes.modify _ j).getD i (.participant default)).isProposal = _
  rw [List.getD_eq_getElem?_getD, List.getD_eq_getElem?_getD,
      List.getElem?_modify]
  cases hg : g.nodes[i]? with
  | none => rfl
  | some it =>
    by_cases hj : j = i
    · simp only [Option.map_eq_map, Option.map_some, Option.getD_some, if_pos hj]
      cases it <;> rfl
    · simp only [Option.map_eq_map, Option.map_some, Option.getD_some, if_neg hj]

theorem get_proposals_setStatus_none (g : Graph) (j : ℕ) (s : ProposalStatus) :
    get_proposals (setStatus g j s) none = get_proposals g none := by
  rw [get_proposals_none_eq, get_proposals_none_eq]
  have hlen : (setStatus g j s).nodes.length = g.nodes.length :=
    List.length_modify ..
  rw [hlen]
  refine List.filter_congr ?_
  intro i _
  rw [setStatus_isProposal_getD]

/-- Counterexample to C2: on a graph whose node 0 is an ACTIVE (hence
non-CANDIDATE) proposal, `setup_conflict_edges` still pairs it (the snapshot
is `get_proposals(network)` with no status filter), and with first draw 0 it
creates a conflict edge out of the ACTIVE proposal. -/
theorem setup_conflict_edges_touches_non_candidate :
    rngOk [0, 1/2] ∧
    (gTwoProposals.nodes.get? 0 =
        some (Item.proposal (Proposal.mk 0 ProposalStatus.ACTIVE 0 50 0)) ∧
      ProposalStatus.ACTIVE ≠ ProposalStatus.CANDIDATE) ∧
    getEdge gTwoProposals 0 1 = none ∧
    getEdge (setup_conflict_edges gTwoProposals none (1/4) [0, 1/2]).1 0 1 =
      some (EdgeData.mk "conflict" 0 0 0 1 0) := by
  have hrun : (setup_conflict_edges gTwoProposals none (1/4) [0, 1/2]).1 =
      create_conflict_edge gTwoProposals 0 1 0 := by
    show (conflictOuter gTwoProposals [0, 1] [0, 1] (1/4) [0, 1/2]).1 = _
    norm_num [conflictOuter, loop_over_other_proposals, draw]
  refine ⟨?_, ⟨rfl, by decide⟩, rfl, ?_⟩
  · intro x hx
    simp only [List.mem_cons, List.not_mem_nil, or_false] at hx
    rcases hx with rfl | rfl <;> norm_num
  · rw [hrun, create_conflict_edge_getEdge_self]
    show some (EdgeData.mk "conflict" 0 0 0 (1 - 0) 0) = _
    norm_num

/-- C2 as amended: `setup_conflict_edges` pairs all proposals regardless of
status — every proposal node is in the snapshot it iterates over, and
overwriting any proposal's status commutes with conflict generation (the
generator never reads statuses), so non-CANDIDATE proposals receive
conflict edges exactly as CANDIDATE ones do. -/
theorem setup_conflict_edges_status_blind (g : Graph) (j i : ℕ)
    (s : ProposalStatus) (q : Proposal) (proposal : Option ℕ) (rate : ℚ)
    (rng : RNG) (hq : g.nodes.get? i = some (Item.proposal q)) :
    i ∈ get_proposals g none ∧
    setup_conflict_edges (setStatus g j s) proposal rate rng =
      (setStatus (setup_conflict_edges g proposal rate rng).1 j s,
       (setup_conflict_edges g proposal rate rng).2) := by
  constructor
  · rw [List.get?_eq_getElem?] at hq
    rw [get_proposals_none_eq]
    refine List.mem_filter.mpr ⟨List.mem_range.mpr ?_, ?_⟩
    · by_contra hge
      rw [List.getElem?_eq_none (le_of_not_lt hge)] at hq
      cases hq
    · rw [List.getD_eq_getElem?_getD, hq]
      rfl
  · unfold setup_conflict_edges
    rw [get_proposals_setStatus_none]
    cases proposal with
    | none => exact setStatus_conflictOuter _ g j s _ rate rng
    | some p => exact setStatus_loop_over_other_proposals _ g j s p rate rng

/-- Witness for the amended C2: node 0 of the fixture is a proposal (ACTIVE),
it is in the unfiltered snapshot, and overwriting its status commutes with a
concrete conflict-generation run. -/
theorem setup_conflict_edges_status_blind_witness :
    gTwoProposals.nodes.get? 0 =
      some (Item.proposal (Proposal.mk 0 ProposalStatus.ACTIVE 0 50 0)) ∧
    (0 ∈ get_proposals gTwoProposals none ∧
     setup_conflict_edges (setStatus gTwoProposals 0 ProposalStatus.COMPLETED)
        none (1/4) [0, 1/2] =
       (setStatus (setup_conflict_edges gTwoProposals none (1/4) [0, 1/2]).1 0
          ProposalStatus.COMPLETED,
        (setup_conflict_edges gTwoProposals none (1/4) [0, 1/2]).2)) :=
  ⟨rfl, setup_conflict_edges_status_blind gTwoProposals 0 0
    ProposalStatus.COMPLETED (Proposal.mk 0 ProposalStatus.ACTIVE 0 50 0)
    none (1/4) [0, 1/2] rfl⟩

theorem influence_some_iff (scale sigmas rv w : ℚ)
    (h : influence scale sigmas rv = some w) :
    w = rv ∧ scale + sigmas * scale ^ 2 < w := by
  unfold influence at h
  by_cases hc : rv > scale + sigmas * scale ^ 2
  · rw [if_pos hc] at h
    have := Option.some.inj h
    exact ⟨this.symm, this ▸ hc⟩
  · rw [if_neg hc] at h
    cases h

theorem influence_none_of_le (scale sigmas rv : ℚ)
    (h : rv ≤ scale + sigmas * scale ^ 2) :
    influence scale sigmas rv = none := by
  unfold influence
  rw [if_neg (not_lt.mpr h)]

theorem newEdgesInfluence_refl (g : Graph) : NewEdgesInfluence g g :=
  fun _ _ _ h => Or.inl h

theorem newEdgesInfluence_trans {g1 g2 g3 : Graph}
    (h12 : NewEdgesInfluence g1 g2) (h23 : NewEdgesInfluence g2 g3) :
    NewEdgesInfluence g1 g3 :=
  fun u v d h => (h23 u v d h).elim (fun h2 => h12 u v d h2) Or.inr

theorem influenceStep_new (g : Graph) (a b : ℕ) (rng : RNG) :
    NewEdgesInfluence g (influenceStep g a b rng).1 := by
  intro u v d h
  simp only [influenceStep] at h
  by_cases he : hasEdge g a b
  · rw [if_pos he] at h
    exact Or.inl h
  · rw [if_neg he] at h
    by_cases ht : optTruthy (influence 1 3 (draw rng).1) = true
    · rw [if_pos ht] at h
      by_cases huv : u = a ∧ v = b
      · rw [huv.1, huv.2, getEdge_addEdgeWith_self] at h
        have hd := Option.some.inj h
        subst hd
        refine Or.inr ⟨rfl, ?_⟩
        show 1 + 3 * 1 ^ 2 ≤ (influence 1 3 (draw rng).1).getD 0
        cases hi : influence 1 3 (draw rng).1 with
        | none => rw [hi] at ht; simp [optTruthy] at ht
        | some w =>
          obtain ⟨_, hcut⟩ := influence_some_iff 1 3 (draw rng).1 w hi
          rw [Option.getD_some]
          exact le_of_lt hcut
      · rw [getEdge_addEdgeWith_other g _ huv] at h
        exact Or.inl h
    · rw [if_neg ht] at h
      exact Or.inl h

theorem influenceSingleLoop_new (others : List ℕ) (g : Graph) (k : ℕ)
    (rng : RNG) :
    NewEdgesInfluence g (influenceSingleLoop g k others rng).1 := by
  induction others generalizing g rng with
  | nil => exact newEdgesInfluence_refl g
  | cons o rest ih =>
    simp only [influenceSingleLoop]
    exact newEdgesInfluence_trans (influenceStep_new g o k rng)
      (newEdgesInfluence_trans (influenceStep_new _ k o _) (ih _ _))

theorem influenceBulkInner_new (others : List ℕ) (g : Graph) (i : ℕ)
    (rng : RNG) :
    NewEdgesInfluence g (influenceBulkInner g i others rng).1 := by
  induction others generalizing g rng with
  | nil => exact newEdgesInfluence_refl g
  | cons o rest ih =>
    simp only [influenceBulkInner]
    by_cases ho : o = i
    · rw [if_pos ho]
      exact ih g rng
    · rw [if_neg ho]
      exact newEdgesInfluence_trans (influenceStep_new g i o rng) (ih _ _)

theorem influenceBulkOuter_new (iter : List ℕ) (g : Graph) (others : List ℕ)
    (rng : RNG) :
    NewEdgesInfluence g (influenceBulkOuter g iter others rng).1 := by
  induction iter generalizing g rng with
  | nil => exact newEdgesInfluence_refl g
  | cons i rest ih =>
    simp only [influenceBulkOuter]
    exact newEdgesInfluence_trans (influenceBulkInner_new others g i rng) (ih _ _)

/-- C7: `influence(scale, sigmas)` returns the drawn variate only when it
strictly exceeds `scale + sigmas*scale²` and otherwise signals no influence;
consequently every influence edge added by the bulk generator or by the
incremental participant insertion (both call `influence()` with the defaults
`scale=1, sigmas=3`) carries `influence ≥ 1 + 3·1² ` — in fact the generators
only ever add edges at or above that cutoff on top of the existing ones. -/
theorem influence_cutoff_spec (scale sigmas rv : ℚ) (g : Graph) (k : ℕ)
    (rng : RNG) :
    (∀ w, influence scale sigmas rv = some w →
      w = rv ∧ scale + sigmas * scale ^ 2 < w) ∧
    (rv ≤ scale + sigmas * scale ^ 2 → influence scale sigmas rv = none) ∧
    NewEdgesInfluence g (setup_influence_edges_single g k rng).1 ∧
    NewEdgesInfluence g (setup_influence_edges_bulk g rng).1 :=
  ⟨fun w hw => influence_some_iff scale sigmas rv w hw,
   influence_none_of_le scale sigmas rv,
   influenceSingleLoop_new _ g k rng,
   influenceBulkOuter_new _ g _ rng⟩

/-- Witness for C7: the draw 5 beats the default cutoff `1 + 3·1² = 4` and
is returned; the draw 2 does not and yields no influence; incremental
insertion of participant 1 into the two-participant fixture with draws
`[5, 2]` creates exactly the influence edge `(0,1)` with influence `5 ≥ 4`. -/
theorem influence_cutoff_witness :
    (influence 1 3 5 = some 5 ∧ ((5:ℚ) = 5 ∧ (1:ℚ) + 3 * 1 ^ 2 < 5)) ∧
    ((2:ℚ) ≤ 1 + 3 * 1 ^ 2 ∧ influence 1 3 2 = none) ∧
    (getEdge (setup_influence_edges_single gTwoPars 1 [5, 2]).1 0 1 =
        some (EdgeData.mk "influence" 0 0 0 0 5) ∧
      (getEdge gTwoPars 0 1 = some (EdgeData.mk "influence" 0 0 0 0 5) ∨
       ((EdgeData.mk "influence" 0 0 0 0 5).type = "influence" ∧
        1 + 3 * 1 ^ 2 ≤ (EdgeData.mk "influence" 0 0 0 0 5).influence))) := by
  have h5 : influence 1 3 5 = some 5 := by norm_num [influence]
  have hTruthy : optTruthy (influence 1 3 5) = true := by
    rw [h5]
    simp [optTruthy]
  have hgd : (influence 1 3 5).getD 0 = 5 := by
    rw [h5]
    rfl
  have hstep1 : influenceStep gTwoPars 0 1 [5, 2] =
      (addEdgeWith gTwoPars 0 1
        (fun d => { d with influence := 5, type := "influence" }), [2]) := by
    simp only [influenceStep, draw]
    rw [if_neg (by decide), if_pos hTruthy, hgd]
  have hstep2 : influenceStep (addEdgeWith gTwoPars 0 1
      (fun d => { d with influence := 5, type := "influence" })) 1 0 [2] =
      (addEdgeWith gTwoPars 0 1
        (fun d => { d with influence := 5, type := "influence" }), []) := by
    simp only [influenceStep, draw]
    rw [if_neg (by decide), influence_none_of_le 1 3 2 (by norm_num),
        if_neg (by simp [optTruthy])]
  have hrun1 : (setup_influence_edges_single gTwoPars 1 [5, 2]).1 =
      addEdgeWith gTwoPars 0 1
        (fun d => { d with influence := 5, type := "influence" }) := by
    show (influenceSingleLoop gTwoPars 1 [0] [5, 2]).1 = _
    simp only [influenceSingleLoop, hstep1, hstep2]
  have hEval : getEdge (setup_influence_edges_single gTwoPars 1 [5, 2]).1 0 1 =
      some (EdgeData.mk "influence" 0 0 0 0 5) := by
    rw [hrun1, getEdge_addEdgeWith_self]
    rfl
  exact ⟨⟨h5, (influence_cutoff_spec 1 3 5 gTwoPars 1 [5, 2]).1 5 h5⟩,
    ⟨by norm_num,
     (influence_cutoff_spec 1 3 2 gTwoPars 1 [5, 2]).2.1 (by norm_num)⟩,
    ⟨hEval,
     (influence_cutoff_spec 1 3 5 gTwoPars 1 [5, 2]).2.2.1 0 1 _ hEval⟩⟩

end Claims

end Coodcad
